import Mathlib

/-!
Verification of the Cluster Snapshot Differencing Engine of `elasticstat.py`
(class `ElasticStat`): a shallow embedding of role classification
(`get_role`), counter delta tracking (`get_gc_stats`, `get_fd_stats`,
`get_http_conns`), per-node record assembly (`process_node`), per-role
rendering (`process_role`) and the per-cycle reconciliation loop from
`printStats`, together with theorems checking the specification's claims.

Modelling conventions:
* Python dicts keyed by strings become association lists
  (`List (String × _)`); `List.lookup` finds the first matching key, and
  updates overwrite the first matching entry or append a fresh one, which
  coincides with unique-key dict behaviour.  Dict iteration is modelled as
  association-list (insertion) order.
* Python ints become `Int` (arbitrary precision; deltas may be negative).
* `"{0}|{1}".format(a, b)` becomes explicit `toString`/`++` concatenation.
* `for x in lst` over a list that the loop body mutates is embedded
  index-faithfully: the loop keeps an index, re-reads the possibly mutated
  list at each step, and stops when the index reaches the current length —
  CPython's list-iterator semantics.
* Pre-rendered human-readable metrics (load averages, pool sizes, merge
  times) are carried as strings, as the engine passes them through opaquely.
-/

namespace Elasticstat

/-- Update an association list at a key: overwrite the first entry carrying
that key, or append a fresh entry at the end.  Embeds `d[k] = v` on a
Python dict. -/
def setval {α : Type} (m : List (String × α)) (k : String) (v : α) :
    List (String × α) :=
  match m with
  | [] => [(k, v)]
  | (k', v') :: rest => if k' = k then (k, v) :: rest else (k', v') :: setval rest k v

/-- `d.get(k, dflt)` on a Python dict. -/
def lookupD {α : Type} (m : List (String × α)) (k : String) (d : α) : α :=
  (m.lookup k).getD d

/-- Embeds `ElasticStat.get_role` (elasticstat.py:83-108): classify a node
from its raw `attributes` sub-document.  A missing `data`/`master` key
defaults to the string `"true"`. -/
def get_role (attributes : List (String × String)) : String :=
  let isdata := (attributes.lookup "data").getD "true"
  let ismaster := (attributes.lookup "master").getD "true"
  if ismaster = "true" ∧ isdata = "true" then "ALL"
  else if ismaster = "true" ∧ isdata = "false" then "MST"
  else if ismaster = "false" ∧ isdata = "true" then "DATA"
  else if ismaster = "false" ∧ isdata = "false" then "RTR"
  else "UNK"

/-- One garbage-collector generation of `node['jvm']['gc']['collectors']`:
cumulative collection count and cumulative collection time. -/
structure GcGen where
  collection_count : Int
  collection_time_in_millis : Int
deriving DecidableEq

/-- Embeds the Python expression `"{0}|{0}ms".format(arg0, arg1)` from
`get_gc_stats` (elasticstat.py:126-127): positional index `0` is used for
both halves of the label, so `arg1` (the cumulative collection time passed
as the second argument) does not occur in the result. -/
def format_delta_pair (arg0 : Int) (_arg1 : Int) : String :=
  toString arg0 ++ "|" ++ toString arg0 ++ "ms"

/-- Embeds `ElasticStat.get_gc_stats` (elasticstat.py:110-128).  The store
`gc_counters` embeds `self.node_counters['gc']`, keyed by the node *name*
passed by `process_node`; each entry holds the last-seen `(old, young)`
cumulative collection counts. -/
def get_gc_stats (gc_counters : List (String × (Int × Int))) (node_name : String)
    (gc_old gc_young : GcGen) : (String × String) × List (String × (Int × Int)) :=
  match gc_counters.lookup node_name with
  | none =>
      (("-|-", "-|-"),
       setval gc_counters node_name (gc_old.collection_count, gc_young.collection_count))
  | some (old0, young0) =>
      let old_gc_delta := gc_old.collection_count - old0
      let young_gc_delta := gc_young.collection_count - young0
      ((format_delta_pair old_gc_delta gc_old.collection_time_in_millis,
        format_delta_pair young_gc_delta gc_young.collection_time_in_millis),
       setval gc_counters node_name (gc_old.collection_count, gc_young.collection_count))

/-- Embeds `ElasticStat.get_fd_stats` (elasticstat.py:130-144).  The store
embeds `self.node_counters['fd']`, keyed by node name; each entry holds the
last-seen `(evictions, tripped)` cumulative counts. -/
def get_fd_stats (fd_counters : List (String × (Int × Int))) (node_name : String)
    (current_evictions current_tripped : Int) : String × List (String × (Int × Int)) :=
  match fd_counters.lookup node_name with
  | none =>
      ("-|-", setval fd_counters node_name (current_evictions, current_tripped))
  | some (fde0, fdt0) =>
      let fde_delta := current_evictions - fde0
      let fdt_delta := current_tripped - fdt0
      (toString fde_delta ++ "|" ++ toString fdt_delta,
       setval fd_counters node_name (current_evictions, current_tripped))

/-- Embeds `ElasticStat.get_http_conns` (elasticstat.py:146-154).  The store
embeds `self.node_counters['hconn']`, keyed by node name; each entry holds
the last-seen cumulative `total_opened`. -/
def get_http_conns (hconn_counters : List (String × Int)) (node_name : String)
    (current_open total_opened : Int) : String × List (String × Int) :=
  match hconn_counters.lookup node_name with
  | none =>
      (toString current_open ++ "|-", setval hconn_counters node_name total_opened)
  | some prev =>
      let open_delta := total_opened - prev
      (toString current_open ++ "|" ++ toString open_delta,
       setval hconn_counters node_name total_opened)

/-- Per-node raw metrics for one cycle: the parts of one entry of
`nodes_stats['nodes']` that `process_node`/`process_role` read.  The entry's
key in the snapshot is the cluster-assigned node id; `name` is the display
name.  Pre-rendered human-readable values are carried as strings. -/
structure NodeStats where
  name : String
  attributes : List (String × String)
  load_average : List String
  mem_used_percent : Int
  heap_used_percent : Int
  old_pool_used : String
  gc_old : GcGen
  gc_young : GcGen
  threads : String → Int × Int × Int
  fielddata_evictions : Int
  fielddata_tripped : Int
  http_current_open : Int
  http_total_opened : Int
  transport_server_open : Int
  merges_total_time : String
  store_throttle_time : String
  docs_count : Int
  docs_deleted : Int

/-- A per-cycle nodes snapshot: `nodes_stats['nodes']`, node id → metrics. -/
abbrev NodesStats := List (String × NodeStats)

/-- The `processed_node` dict assembled by `process_node`
(elasticstat.py:156-201), which `NODES_TEMPLATE` renders field by field. -/
structure ProcessedNode where
  name : String
  role : String
  load_avg : String
  used_mem : String
  used_heap : String
  old_gc_sz : String
  old_gc : String
  young_gc : String
  index_threads : String
  search_threads : String
  bulk_threads : String
  get_threads : String
  merge_threads : String
  fielddata : String
  http_conn : String
  transport_conn : Int
  merge_time : String
  store_throttle : String
  docs : String
deriving DecidableEq

/-- One row put on `node_results`: either a full `NODES_TEMPLATE` record or a
`NODES_FAILED_TEMPLATE` record (name and parenthesized role label). -/
inductive NodeRecord where
  | ok : ProcessedNode → NodeRecord
  | failed : String → String → NodeRecord
deriving DecidableEq

/-- `self.nodes_by_role`: role label → list of node ids in that bucket. -/
abbrev RoleBuckets := List (String × List String)

/-- The bucket list for a role; `[]` when the role key is absent. -/
def bucketOf (m : RoleBuckets) (role : String) : List String :=
  (m.lookup role).getD []

/-- Embeds `self.nodes_by_role.setdefault(role, []).append(node_id)`. -/
def appendToRole (m : RoleBuckets) (role : String) (node_id : String) : RoleBuckets :=
  match m with
  | [] => [(role, [node_id])]
  | (r, b) :: rest =>
      if r = role then (r, b ++ [node_id]) :: rest
      else (r, b) :: appendToRole rest role node_id

/-- Python `list.remove(x)`: drop the first occurrence of `x`.  (Python
raises `ValueError` when `x` is absent; the engine only removes ids it just
found in the list, so that path is unreachable and absent means no-op.) -/
def removeFirst (xs : List String) (x : String) : List String :=
  match xs with
  | [] => []
  | y :: ys => if y = x then ys else y :: removeFirst ys x

/-- Embeds `self.nodes_by_role[role].remove(node_id)`. -/
def removeFromRole (m : RoleBuckets) (role : String) (node_id : String) : RoleBuckets :=
  match m with
  | [] => []
  | (r, b) :: rest =>
      if r = role then (r, removeFirst b node_id) :: rest
      else (r, b) :: removeFromRole rest role node_id

/-- Number of occurrences of a node id summed over every role bucket. -/
def totalCount (m : RoleBuckets) (node_id : String) : Nat :=
  match m with
  | [] => 0
  | (_, b) :: rest => b.count node_id + totalCount rest node_id

/-- The mutable state of the `ElasticStat` object: the three counter stores
of `self.node_counters`, the known-node list, the role buckets, the display
names and the current active master (elasticstat.py:58-66, 228). -/
structure ESState where
  gc_counters : List (String × (Int × Int))
  fd_counters : List (String × (Int × Int))
  hconn_counters : List (String × Int)
  nodes_list : List String
  nodes_by_role : RoleBuckets
  node_names : List (String × String)
  active_master : String

/-- State at construction time: empty counters, no known nodes. -/
def init_state : ESState :=
  { gc_counters := [], fd_counters := [], hconn_counters := []
    nodes_list := [], nodes_by_role := [], node_names := [], active_master := "" }

/-- `"{0}|{1}|{2}".format(active, queue, rejected)` for one thread pool. -/
def thread_str (t : Int × Int × Int) : String :=
  toString t.1 ++ "|" ++ toString t.2.1 ++ "|" ++ toString t.2.2

/-- Embeds `ElasticStat.process_node` (elasticstat.py:156-201): assemble the
`processed_node` record for one node and update the counter stores.  Counter
stores are keyed by `node['name']`, the display name; `role in ['DATA','ALL']`
guards the data-only fields. -/
def process_node (st : ESState) (role : String) (node : NodeStats) :
    ProcessedNode × ESState :=
  let name := node.name
  let role_label := if name = st.active_master then role ++ "*" else role
  let gcr := get_gc_stats st.gc_counters name node.gc_old node.gc_young
  let fdr := get_fd_stats st.fd_counters name node.fielddata_evictions node.fielddata_tripped
  let hcr := get_http_conns st.hconn_counters name node.http_current_open node.http_total_opened
  let pn : ProcessedNode :=
    { name := name
      role := role_label
      load_avg := String.intercalate "/" node.load_average
      used_mem := toString node.mem_used_percent ++ "%"
      used_heap := toString node.heap_used_percent ++ "%"
      old_gc_sz := node.old_pool_used
      old_gc := gcr.1.1
      young_gc := gcr.1.2
      index_threads := thread_str (node.threads "index")
      search_threads := thread_str (node.threads "search")
      bulk_threads := thread_str (node.threads "bulk")
      get_threads := thread_str (node.threads "get")
      merge_threads := thread_str (node.threads "merge")
      fielddata := fdr.1
      http_conn := hcr.1
      transport_conn := node.transport_server_open
      merge_time :=
        if role ∈ (["DATA", "ALL"] : List String) then node.merges_total_time else "-"
      store_throttle :=
        if role ∈ (["DATA", "ALL"] : List String) then node.store_throttle_time else "-"
      docs :=
        if role ∈ (["DATA", "ALL"] : List String) then
          toString node.docs_count ++ "|" ++ toString node.docs_deleted
        else "-|-" }
  (pn, { st with gc_counters := gcr.2, fd_counters := fdr.2, hconn_counters := hcr.2 })

/-- One iteration of the `for node_id in self.nodes_by_role[role]` loop body
of `ElasticStat.process_role` (elasticstat.py:204-218) for a given id:
either the absent-node degraded record, or role reclassification (moving the
id between buckets when the role changed) followed by `process_node`. -/
def process_one (role : String) (nodes_stats : NodesStats) (node_id : String)
    (st : ESState) : ESState × NodeRecord :=
  match nodes_stats.lookup node_id with
  | none =>
      (st, .failed (lookupD st.node_names node_id "") ("(" ++ role ++ ")"))
  | some node =>
      let current_role := get_role node.attributes
      let moved := removeFromRole (appendToRole st.nodes_by_role current_role node_id) role node_id
      let st1 := if current_role ≠ role then { st with nodes_by_role := moved } else st
      let pr := process_node st1 current_role node
      (pr.2, .ok pr.1)

/-- The `for node_id in self.nodes_by_role[role]` loop of `process_role`,
with CPython list-iterator semantics: an index into the live bucket list,
re-read from the state (the body may have removed the current element, which
shifts later elements down and makes the iterator skip one).  `fuel` bounds
the iteration count; the loop also ends as soon as the index reaches the
current length, and the bucket never grows during its own iteration, so fuel
equal to the bucket length at entry is exact. -/
def process_role_go (role : String) (nodes_stats : NodesStats) :
    Nat → Nat → ESState → List NodeRecord → ESState × List NodeRecord
  | 0, _, st, out => (st, out)
  | fuel + 1, i, st, out =>
      let bucket := bucketOf st.nodes_by_role role
      if i < bucket.length then
        let pr := process_one role nodes_stats (bucket.getD i "") st
        process_role_go role nodes_stats fuel (i + 1) pr.1 (out ++ [pr.2])
      else (st, out)

/-- Embeds `ElasticStat.process_role` (elasticstat.py:203-218): render every
id of one role bucket, appending records to the `node_results` buffer. -/
def process_role (role : String) (nodes_stats : NodesStats) (st : ESState)
    (out : List NodeRecord) : ESState × List NodeRecord :=
  process_role_go role nodes_stats (bucketOf st.nodes_by_role role).length 0 st out

/-- Register one node id from the snapshot: append to `self.nodes_list`,
record its display name, classify and add to that role's bucket
(elasticstat.py:241-245 and 252-256; both loops have this same body). -/
def register_node (st : ESState) (nodes_stats : NodesStats) (node_id : String) :
    ESState :=
  match nodes_stats.lookup node_id with
  | none => st
  | some node =>
      { st with
        nodes_list := st.nodes_list ++ [node_id]
        node_names := setval st.node_names node_id node.name
        nodes_by_role := appendToRole st.nodes_by_role (get_role node.attributes) node_id }

/-- Fold `register_node` over a list of snapshot ids. -/
def register_nodes (st : ESState) (nodes_stats : NodesStats) (ids : List String) :
    ESState :=
  ids.foldl (fun s node_id => register_node s nodes_stats node_id) st

/-- The membership-reconciliation part of one `printStats` cycle
(elasticstat.py:238-256).  On the first run every snapshot id is registered;
afterwards new ids are registered only when the snapshot is strictly larger
than the known-node list (`len(nodes_stats['nodes']) > current_nodes_count`),
in which case `new_nodes = set(S_now) - set(S_known)` is registered (modelled
as the order-preserving filter of the snapshot ids, standing in for
Python 2's arbitrary but duplicate-free set order). -/
def reconcile (st : ESState) (nodes_stats : NodesStats) : ESState :=
  let current_nodes_count := st.nodes_list.length
  if current_nodes_count = 0 then
    register_nodes st nodes_stats (nodes_stats.map Prod.fst)
  else if nodes_stats.length > current_nodes_count then
    register_nodes st nodes_stats
      ((nodes_stats.map Prod.fst).filter (fun node_id => ¬ st.nodes_list.contains node_id))
  else st

/-- One polling cycle of `ElasticStat.printStats` (elasticstat.py:225-266),
restricted to the differencing engine: reconcile membership, then run
`process_role` for every role key (the key list is snapshotted when the
role loop starts, as `for role in self.nodes_by_role` iterates the keys
present at that point), returning the new state and this cycle's records. -/
def run_cycle (st : ESState) (nodes_stats : NodesStats) : ESState × List NodeRecord :=
  let st1 := reconcile st nodes_stats
  let roles := st1.nodes_by_role.map Prod.fst
  roles.foldl (fun acc role => process_role role nodes_stats acc.1 acc.2) (st1, [])

/-- Run a sequence of cycles from the freshly constructed state. -/
def run_cycles (snaps : List NodesStats) : ESState :=
  snaps.foldl (fun st ns => (run_cycle st ns).1) init_state

/-- Well-formedness of the topology: every node id occurs at most once
across all role buckets, and every id occurring in a bucket is in the
known-node list. -/
def BucketsWF (st : ESState) : Prop :=
  (∀ node_id, totalCount st.nodes_by_role node_id ≤ 1) ∧
  (∀ node_id, 1 ≤ totalCount st.nodes_by_role node_id → node_id ∈ st.nodes_list)

/-- Build a concrete `NodeStats` for test scenarios: display name, raw
attributes and GC-old cumulative count; the remaining metrics are fixed
small values. -/
def mkNode (name : String) (attributes : List (String × String))
    (gc_old_count : Int) : NodeStats :=
  { name := name
    attributes := attributes
    load_average := ["0.1", "0.2", "0.3"]
    mem_used_percent := 40
    heap_used_percent := 50
    old_pool_used := "1gb"
    gc_old := ⟨gc_old_count, 100⟩
    gc_young := ⟨2, 30⟩
    threads := fun _ => (1, 0, 0)
    fielddata_evictions := 0
    fielddata_tripped := 0
    http_current_open := 3
    http_total_opened := 10
    transport_server_open := 13
    merges_total_time := "2.1s"
    store_throttle_time := "0s"
    docs_count := 1000
    docs_deleted := 5 }

/-- The display name carried by a record (both record shapes carry one). -/
def record_name : NodeRecord → String
  | .ok pn => pn.name
  | .failed name _ => name

/-- The role label carried by a record. -/
def record_role_label : NodeRecord → String
  | .ok pn => pn.role
  | .failed _ role => role

/-- Whether a record is a `NODES_FAILED_TEMPLATE` degraded record. -/
def record_is_failed : NodeRecord → Bool
  | .ok _ => false
  | .failed _ _ => true

/-- The GC-old result string of a full record (`"?"` for degraded ones). -/
def record_old_gc : NodeRecord → String
  | .ok pn => pn.old_gc
  | .failed _ _ => "?"

/-- Two-node cluster for the missed-join scenario: first snapshot. -/
def c2_ns1 : NodesStats :=
  [("ida", mkNode "node-a" [] 5), ("idb", mkNode "node-b" [] 5)]

/-- Second snapshot of the missed-join scenario: `idb` left, `idc` joined,
so the node count stays at two. -/
def c2_ns2 : NodesStats :=
  [("ida", mkNode "node-a" [] 7), ("idc", mkNode "node-c" [] 7)]

/-- First snapshot for the role-change scenario: two data nodes and one
all-role node, which yields buckets `DATA → [idn1, idn2]`, `ALL → [ida]`. -/
def c3_ns1 : NodesStats :=
  [("idn1", mkNode "n1" [("master", "false")] 5),
   ("idn2", mkNode "n2" [("master", "false")] 5),
   ("ida", mkNode "a" [] 5)]

/-- Second snapshot for the role-change scenario: all three nodes are still
present but `idn1`'s attributes now classify it `ALL`. -/
def c3_ns2 : NodesStats :=
  [("idn1", mkNode "n1" [] 7),
   ("idn2", mkNode "n2" [("master", "false")] 7),
   ("ida", mkNode "a" [] 7)]

/-- Snapshot with two distinct node identities sharing a display name. -/
def c4_ns : NodesStats :=
  [("uuid-one", mkNode "shared-name" [] 5),
   ("uuid-two", mkNode "shared-name" [] 9)]

/-- First snapshot for the absent-node-plus-role-change scenario. -/
def c6_ns1 : NodesStats :=
  [("idm1", mkNode "m1" [("master", "false")] 5),
   ("idm2", mkNode "m2" [("master", "false")] 5),
   ("idb", mkNode "b" [] 5)]

/-- Second snapshot: `idm2` is absent, and `idm1`'s role changed to ALL. -/
def c6_ns2 : NodesStats :=
  [("idm1", mkNode "m1" [] 7), ("idb", mkNode "b" [] 7)]

/-- State used to exercise `process_role` on a bucket with one absent node. -/
def c6w_state : ESState :=
  { init_state with
    nodes_by_role := [("ALL", ["i1", "i2"])]
    nodes_list := ["i1", "i2"]
    node_names := [("i1", "n1"), ("i2", "n2")] }

/-- Snapshot for `c6w_state` in which only `i1` reports stats. -/
def c6w_ns : NodesStats := [("i1", mkNode "n1" [] 7)]

/-- State used to exercise a single role-change step. -/
def c7w_state : ESState :=
  { init_state with
    nodes_by_role := [("DATA", ["i1"])]
    nodes_list := ["i1"]
    node_names := [("i1", "n1")] }

/-- Snapshot for `c7w_state` in which `i1` reclassifies to ALL. -/
def c7w_ns : NodesStats := [("i1", mkNode "n1" [] 7)]

/-- One-node snapshot sequence for concrete invariant checks. -/
def c9w_snaps : List NodesStats := [[("idw", mkNode "w" [] 1)]]

-- ======================================================================
-- Helper lemmas
-- ======================================================================

/-- Lookup after `setval` at the written key. -/
theorem lookup_setval {α : Type} (m : List (String × α)) (k : String) (v : α) :
    (setval m k v).lookup k = some v := by
  induction m with
  | nil => simp [setval, List.lookup]
  | cons hd tl ih =>
      obtain ⟨k', v'⟩ := hd
      by_cases h : k' = k
      · simp [setval, h, List.lookup]
      · simp only [setval, if_neg h, List.lookup]
        have hb : (k == k') = false := by
          simp [beq_iff_eq]
          exact fun he => h he.symm
        simp [hb, ih]

/-- `setval` leaves lookups at other keys unchanged. -/
theorem lookup_setval_ne {α : Type} (m : List (String × α)) (k k' : String) (v : α)
    (h : k' ≠ k) : (setval m k v).lookup k' = m.lookup k' := by
  induction m with
  | nil =>
      have hb : (k' == k) = false := beq_eq_false_iff_ne.mpr h
      simp [setval, List.lookup, hb]
  | cons hd tl ih =>
      obtain ⟨k0, v0⟩ := hd
      by_cases h0 : k0 = k
      · subst h0
        have hb : (k' == k0) = false := beq_eq_false_iff_ne.mpr h
        simp [setval, List.lookup, hb]
      · simp only [setval, if_neg h0, List.lookup]
        by_cases h1 : k' = k0
        · simp [h1]
        · have hb : (k' == k0) = false := beq_eq_false_iff_ne.mpr h1
          simp [hb, ih]

/-- Whatever branch `get_gc_stats` takes, the new store records the current
cumulative counts under the node name. -/
theorem get_gc_stats_counters (gcs : List (String × (Int × Int))) (n : String)
    (o y : GcGen) :
    (get_gc_stats gcs n o y).2 = setval gcs n (o.collection_count, y.collection_count) := by
  rcases h : gcs.lookup n with _ | ⟨o0, y0⟩ <;> simp [get_gc_stats, h]

/-- Whatever branch `get_fd_stats` takes, the new store records the current
cumulative counts under the node name. -/
theorem get_fd_stats_counters (fds : List (String × (Int × Int))) (n : String)
    (ev tr : Int) :
    (get_fd_stats fds n ev tr).2 = setval fds n (ev, tr) := by
  rcases h : fds.lookup n with _ | ⟨e0, t0⟩ <;> simp [get_fd_stats, h]

/-- Whatever branch `get_http_conns` takes, the new store records the current
cumulative total under the node name. -/
theorem get_http_conns_counters (hcs : List (String × Int)) (n : String)
    (cur tot : Int) :
    (get_http_conns hcs n cur tot).2 = setval hcs n tot := by
  rcases h : hcs.lookup n with _ | p0 <;> simp [get_http_conns, h]

/-- `process_node` touches only the three counter stores. -/
theorem process_node_topology (st : ESState) (role : String) (node : NodeStats) :
    (process_node st role node).2.nodes_by_role = st.nodes_by_role ∧
    (process_node st role node).2.nodes_list = st.nodes_list ∧
    (process_node st role node).2.node_names = st.node_names ∧
    (process_node st role node).2.active_master = st.active_master :=
  ⟨rfl, rfl, rfl, rfl⟩

/-- Appending to a role's bucket appends to exactly that bucket. -/
theorem bucketOf_appendToRole_same (m : RoleBuckets) (r node_id : String) :
    bucketOf (appendToRole m r node_id) r = bucketOf m r ++ [node_id] := by
  induction m with
  | nil => simp [appendToRole, bucketOf, List.lookup]
  | cons hd tl ih =>
      obtain ⟨r0, b0⟩ := hd
      by_cases h : r0 = r
      · subst h
        simp [appendToRole, bucketOf, List.lookup]
      · have hb : (r == r0) = false := beq_eq_false_iff_ne.mpr fun he => h he.symm
        simpa [appendToRole, if_neg h, bucketOf, List.lookup, hb] using ih

/-- Appending to a role's bucket leaves other roles' buckets unchanged. -/
theorem bucketOf_appendToRole_ne (m : RoleBuckets) (r r' node_id : String)
    (h : r' ≠ r) : bucketOf (appendToRole m r node_id) r' = bucketOf m r' := by
  induction m with
  | nil =>
      have hb : (r' == r) = false := beq_eq_false_iff_ne.mpr h
      simp [appendToRole, bucketOf, List.lookup, hb]
  | cons hd tl ih =>
      obtain ⟨r0, b0⟩ := hd
      by_cases h0 : r0 = r
      · subst h0
        have hb : (r' == r0) = false := beq_eq_false_iff_ne.mpr h
        simp [appendToRole, bucketOf, List.lookup, hb]
      · by_cases h1 : r' = r0
        · subst h1
          simp [appendToRole, if_neg h0, bucketOf, List.lookup]
        · have hb : (r' == r0) = false := beq_eq_false_iff_ne.mpr h1
          simpa [appendToRole, if_neg h0, bucketOf, List.lookup, hb] using ih

/-- Removing from a role's bucket removes from exactly that bucket. -/
theorem bucketOf_removeFromRole_same (m : RoleBuckets) (r node_id : String) :
    bucketOf (removeFromRole m r node_id) r = removeFirst (bucketOf m r) node_id := by
  induction m with
  | nil => simp [removeFromRole, bucketOf, List.lookup, removeFirst]
  | cons hd tl ih =>
      obtain ⟨r0, b0⟩ := hd
      by_cases h : r0 = r
      · subst h
        simp [removeFromRole, bucketOf, List.lookup]
      · have hb : (r == r0) = false := beq_eq_false_iff_ne.mpr fun he => h he.symm
        simpa [removeFromRole, if_neg h, bucketOf, List.lookup, hb] using ih

/-- Removing from a role's bucket leaves other roles' buckets unchanged. -/
theorem bucketOf_removeFromRole_ne (m : RoleBuckets) (r r' node_id : String)
    (h : r' ≠ r) : bucketOf (removeFromRole m r node_id) r' = bucketOf m r' := by
  induction m with
  | nil => simp [removeFromRole]
  | cons hd tl ih =>
      obtain ⟨r0, b0⟩ := hd
      by_cases h0 : r0 = r
      · subst h0
        have hb : (r' == r0) = false := beq_eq_false_iff_ne.mpr h
        simp [removeFromRole, bucketOf, List.lookup, hb]
      · by_cases h1 : r' = r0
        · subst h1
          simp [removeFromRole, if_neg h0, bucketOf, List.lookup]
        · have hb : (r' == r0) = false := beq_eq_false_iff_ne.mpr h1
          simpa [removeFromRole, if_neg h0, bucketOf, List.lookup, hb] using ih

/-- `removeFirst` drops exactly one occurrence of a present element. -/
theorem count_removeFirst_self (b : List String) (x : String) (h : x ∈ b) :
    (removeFirst b x).count x + 1 = b.count x := by
  induction b with
  | nil => cases h
  | cons y ys ih =>
      by_cases hy : y = x
      · subst hy
        simp [removeFirst]
      · have hx : x ∈ ys := by
          rcases List.mem_cons.mp h with h1 | h1
          · exact absurd h1.symm hy
          · exact h1
        simp only [removeFirst, if_neg hy]
        rw [List.count_cons_of_ne (fun he => hy he.symm),
            List.count_cons_of_ne (fun he => hy he.symm)]
        exact ih hx

/-- `removeFirst` does not change the count of other elements. -/
theorem count_removeFirst_ne (b : List String) (x y : String) (h : y ≠ x) :
    (removeFirst b x).count y = b.count y := by
  induction b with
  | nil => simp [removeFirst]
  | cons z zs ih =>
      by_cases hz : z = x
      · subst hz
        simp [removeFirst, List.count_cons_of_ne h]
      · simp only [removeFirst, if_neg hz, List.count_cons]
        rw [ih]

/-- A bucket's count is bounded by the count over all buckets. -/
theorem count_bucketOf_le_totalCount (m : RoleBuckets) (r x : String) :
    (bucketOf m r).count x ≤ totalCount m x := by
  induction m with
  | nil => simp [bucketOf, totalCount, List.lookup]
  | cons hd tl ih =>
      obtain ⟨r0, b0⟩ := hd
      by_cases h : r == r0
      · simp only [bucketOf, List.lookup, h, Option.getD_some, totalCount]
        exact Nat.le_add_right _ _
      · simp only [bucketOf, List.lookup, h, totalCount]
        exact Nat.le_trans ih (Nat.le_add_left _ _)

/-- Effect of `appendToRole` on the total occurrence count of any id. -/
theorem totalCount_appendToRole (m : RoleBuckets) (r node_id x : String) :
    totalCount (appendToRole m r node_id) x =
      totalCount m x + if node_id = x then 1 else 0 := by
  induction m with
  | nil => simp [appendToRole, totalCount, List.count_singleton, beq_iff_eq]
  | cons hd tl ih =>
      obtain ⟨r0, b0⟩ := hd
      by_cases h : r0 = r
      · subst h
        simp only [appendToRole, if_pos rfl, totalCount, List.count_append,
          List.count_singleton, beq_iff_eq]
        omega
      · simp only [appendToRole, if_neg h, totalCount, ih]
        omega

/-- `removeFromRole` drops exactly one total occurrence of the removed id
when that id is in the role's bucket. -/
theorem totalCount_removeFromRole_self (m : RoleBuckets) (r x : String)
    (h : x ∈ bucketOf m r) :
    totalCount (removeFromRole m r x) x + 1 = totalCount m x := by
  induction m with
  | nil => simp [bucketOf, List.lookup] at h
  | cons hd tl ih =>
      obtain ⟨r0, b0⟩ := hd
      by_cases h0 : r0 = r
      · subst h0
        have hb : x ∈ b0 := by
          simpa [bucketOf, List.lookup] using h
        have hc := count_removeFirst_self b0 x hb
        simp only [removeFromRole, if_pos rfl, totalCount]
        omega
      · have hb : (r == r0) = false := beq_eq_false_iff_ne.mpr fun he => h0 he.symm
        have htl : x ∈ bucketOf tl r := by
          simpa [bucketOf, List.lookup, hb] using h
        simp only [removeFromRole, if_neg h0, totalCount]
        have := ih htl
        omega

/-- `removeFromRole` does not change the total count of other ids. -/
theorem totalCount_removeFromRole_ne (m : RoleBuckets) (r x y : String)
    (h : y ≠ x) : totalCount (removeFromRole m r x) y = totalCount m y := by
  induction m with
  | nil => simp [removeFromRole]
  | cons hd tl ih =>
      obtain ⟨r0, b0⟩ := hd
      by_cases h0 : r0 = r
      · subst h0
        simp [removeFromRole, totalCount, count_removeFirst_ne _ _ _ h]
      · simp [removeFromRole, if_neg h0, totalCount, ih]

/-- The element the loop reads at an in-range index is in the bucket. -/
theorem getD_mem_of_lt (b : List String) (i : Nat) (h : i < b.length) :
    b.getD i "" ∈ b := by
  have he : b.getD i "" = b[i] := by
    simp [List.getD_eq_getElem?_getD, List.getElem?_eq_getElem h]
  rw [he]
  exact List.getElem_mem h

/-- After removing the only occurrence, the element is gone. -/
theorem not_mem_removeFirst_of_count_le_one (b : List String) (x : String)
    (hmem : x ∈ b) (hc : b.count x ≤ 1) : x ∉ removeFirst b x := by
  have h1 := count_removeFirst_self b x hmem
  intro hx
  have h2 : 0 < (removeFirst b x).count x := List.count_pos_iff.mpr hx
  omega

/-- A loop step on a node that is absent, or whose current role matches the
bucket being iterated, leaves topology, names and known-node list
untouched. -/
theorem process_one_stable (role : String) (ns : NodesStats) (x : String)
    (st : ESState)
    (h : ((ns.lookup x).map fun nd => get_role nd.attributes).getD role = role) :
    (process_one role ns x st).1.nodes_by_role = st.nodes_by_role ∧
    (process_one role ns x st).1.node_names = st.node_names ∧
    (process_one role ns x st).1.nodes_list = st.nodes_list := by
  rcases hx : ns.lookup x with _ | nd
  · simp [process_one, hx]
  · have hrole : get_role nd.attributes = role := by simpa [hx] using h
    simp [process_one, hx, hrole, process_node]

/-- Records already in the output buffer survive the rendering loop. -/
theorem process_role_go_mem_out (role : String) (ns : NodesStats) (r : NodeRecord) :
    ∀ fuel i st out, r ∈ out → r ∈ (process_role_go role ns fuel i st out).2 := by
  intro fuel
  induction fuel with
  | zero =>
      intro i st out h
      simpa [process_role_go] using h
  | succ fuel ih =>
      intro i st out h
      simp only [process_role_go]
      by_cases hlt : i < (bucketOf st.nodes_by_role role).length
      · rw [if_pos hlt]
        exact ih _ _ _ (List.mem_append_left _ h)
      · rw [if_neg hlt]
        exact h

/-- Under a stable bucket (every surviving member keeps its role), the
rendering loop changes neither the topology nor the recorded names. -/
theorem process_role_go_stable (role : String) (ns : NodesStats) (b : List String)
    (hstable : ∀ x ∈ b,
      ((ns.lookup x).map fun nd => get_role nd.attributes).getD role = role) :
    ∀ fuel i st out, bucketOf st.nodes_by_role role = b →
      (process_role_go role ns fuel i st out).1.nodes_by_role = st.nodes_by_role ∧
      (process_role_go role ns fuel i st out).1.node_names = st.node_names := by
  intro fuel
  induction fuel with
  | zero =>
      intro i st out hb
      simp [process_role_go]
  | succ fuel ih =>
      intro i st out hb
      simp only [process_role_go]
      by_cases hlt : i < (bucketOf st.nodes_by_role role).length
      · rw [if_pos hlt]
        have hxb : (bucketOf st.nodes_by_role role).getD i "" ∈ b := by
          rw [← hb]
          exact getD_mem_of_lt _ _ hlt
        have hstep := process_one_stable role ns _ st (hstable _ hxb)
        have hb' :
            bucketOf (process_one role ns ((bucketOf st.nodes_by_role role).getD i "") st).1.nodes_by_role
              role = b := by
          rw [hstep.1, hb]
        have hrec := ih (i + 1) _
          (out ++ [(process_one role ns ((bucketOf st.nodes_by_role role).getD i "") st).2]) hb'
        exact ⟨hrec.1.trans hstep.1, hrec.2.trans hstep.2.1⟩
      · rw [if_neg hlt]
        exact ⟨rfl, rfl⟩

/-- Under a stable bucket, the record of every index the loop has not yet
passed is emitted; for an absent node it is the degraded record built from
the last-known name. -/
theorem process_role_go_emits_failed (role : String) (ns : NodesStats)
    (b : List String) (node_id : String)
    (hstable : ∀ x ∈ b,
      ((ns.lookup x).map fun nd => get_role nd.attributes).getD role = role)
    (habs : ns.lookup node_id = none) :
    ∀ fuel i st out, bucketOf st.nodes_by_role role = b →
      b.length ≤ fuel + i →
      ∀ j, i ≤ j → ∀ hj : j < b.length, b[j] = node_id →
      NodeRecord.failed (lookupD st.node_names node_id "") ("(" ++ role ++ ")")
        ∈ (process_role_go role ns fuel i st out).2 := by
  intro fuel
  induction fuel with
  | zero =>
      intro i st out hb hfuel j hij hj hbj
      omega
  | succ fuel ih =>
      intro i st out hb hfuel j hij hj hbj
      have hlt : i < (bucketOf st.nodes_by_role role).length := by
        rw [hb]
        omega
      simp only [process_role_go]
      rw [if_pos hlt]
      by_cases hij' : i = j
      · subst hij'
        have hx : (bucketOf st.nodes_by_role role).getD i "" = node_id := by
          rw [hb]
          simp [List.getD_eq_getElem?_getD, List.getElem?_eq_getElem hj, hbj]
        rw [hx]
        have hst : (process_one role ns node_id st).1 = st := by
          simp [process_one, habs]
        have hrec : (process_one role ns node_id st).2 =
            NodeRecord.failed (lookupD st.node_names node_id "") ("(" ++ role ++ ")") := by
          simp [process_one, habs]
        rw [hst, hrec]
        exact process_role_go_mem_out role ns _ fuel (i + 1) st _
          (List.mem_append_right _ (List.mem_singleton.mpr rfl))
      · have hxb : (bucketOf st.nodes_by_role role).getD i "" ∈ b := by
          rw [← hb]
          exact getD_mem_of_lt _ _ hlt
        have hstep := process_one_stable role ns _ st (hstable _ hxb)
        have hb' :
            bucketOf (process_one role ns ((bucketOf st.nodes_by_role role).getD i "") st).1.nodes_by_role
              role = b := by
          rw [hstep.1, hb]
        have hres := ih (i + 1) _ (out ++ [(process_one role ns ((bucketOf st.nodes_by_role role).getD i "") st).2])
          hb' (by omega) j (by omega) hj hbj
        rw [hstep.2.1] at hres
        exact hres

/-- `BucketsWF` only reads the buckets and the known-node list. -/
theorem BucketsWF_congr (st st' : ESState)
    (h1 : st'.nodes_by_role = st.nodes_by_role)
    (h2 : st'.nodes_list = st.nodes_list) (hwf : BucketsWF st) : BucketsWF st' := by
  constructor
  · intro x
    rw [h1]
    exact hwf.1 x
  · intro x hx
    rw [h2]
    exact hwf.2 x (by rwa [h1] at hx)

/-- The freshly constructed state is well formed. -/
theorem BucketsWF_init : BucketsWF init_state := by
  constructor
  · intro x
    simp [init_state, totalCount]
  · intro x hx
    simp [init_state, totalCount] at hx

/-- Registering a genuinely new node preserves well-formedness, and grows
the known-node list by at most that id. -/
theorem register_node_wf (st : ESState) (ns : NodesStats) (node_id : String)
    (hwf : BucketsWF st) (hnew : node_id ∉ st.nodes_list) :
    BucketsWF (register_node st ns node_id) ∧
    (∀ x ∈ (register_node st ns node_id).nodes_list, x ∈ st.nodes_list ∨ x = node_id) := by
  rcases h : ns.lookup node_id with _ | node
  · refine ⟨by simpa [register_node, h] using hwf, ?_⟩
    intro x hx
    exact Or.inl (by simpa [register_node, h] using hx)
  · have hzero : totalCount st.nodes_by_role node_id = 0 := by
      by_contra hne
      exact hnew (hwf.2 node_id (by omega))
    refine ⟨⟨?_, ?_⟩, ?_⟩
    · intro x
      simp only [register_node, h]
      rw [totalCount_appendToRole]
      by_cases hx : node_id = x
      · subst hx
        simp [hzero]
      · have := hwf.1 x
        simp [hx]
        omega
    · intro x hx
      simp only [register_node, h] at hx ⊢
      rw [totalCount_appendToRole] at hx
      by_cases hxid : node_id = x
      · subst hxid
        simp
      · rw [if_neg hxid] at hx
        exact List.mem_append_left _ (hwf.2 x (by omega))
    · intro x hx
      simp only [register_node, h] at hx
      rcases List.mem_append.mp hx with h1 | h1
      · exact Or.inl h1
      · exact Or.inr (List.mem_singleton.mp h1)

/-- Registering a duplicate-free list of ids not yet known preserves
well-formedness. -/
theorem register_nodes_wf (ns : NodesStats) :
    ∀ ids st, BucketsWF st → ids.Nodup → (∀ x ∈ ids, x ∉ st.nodes_list) →
      BucketsWF (register_nodes st ns ids) := by
  intro ids
  induction ids with
  | nil =>
      intro st hwf _ _
      simpa [register_nodes] using hwf
  | cons i rest ih =>
      intro st hwf hnd hmem
      have hstep := register_node_wf st ns i hwf (hmem i (List.mem_cons_self i rest))
      have hrest : ∀ x ∈ rest, x ∉ (register_node st ns i).nodes_list := by
        intro x hx hmemx
        rcases hstep.2 x hmemx with h1 | h1
        · exact hmem x (List.mem_cons_of_mem _ hx) h1
        · exact (List.nodup_cons.mp hnd).1 (h1 ▸ hx)
      have hfold : register_nodes st ns (i :: rest) =
          register_nodes (register_node st ns i) ns rest := by
        simp [register_nodes]
      rw [hfold]
      exact ih _ hstep.1 (List.nodup_cons.mp hnd).2 hrest

/-- One step of the rendering loop, applied to a bucket member, preserves
well-formedness and leaves the known-node list unchanged. -/
theorem process_one_wf (role : String) (ns : NodesStats) (node_id : String)
    (st : ESState) (hwf : BucketsWF st)
    (hmem : node_id ∈ bucketOf st.nodes_by_role role) :
    BucketsWF (process_one role ns node_id st).1 ∧
    (process_one role ns node_id st).1.nodes_list = st.nodes_list := by
  rcases h : ns.lookup node_id with _ | node
  · exact ⟨BucketsWF_congr _ _ (by simp [process_one, h]) (by simp [process_one, h]) hwf,
      by simp [process_one, h]⟩
  · by_cases hr : get_role node.attributes = role
    · exact ⟨BucketsWF_congr _ _ (by simp [process_one, h, hr, process_node])
        (by simp [process_one, h, hr, process_node]) hwf,
        by simp [process_one, h, hr, process_node]⟩
    · have hstate : (process_one role ns node_id st).1.nodes_by_role =
          removeFromRole (appendToRole st.nodes_by_role (get_role node.attributes) node_id)
            role node_id := by
        simp [process_one, h, hr, process_node]
      have hlist : (process_one role ns node_id st).1.nodes_list = st.nodes_list := by
        simp [process_one, h, hr, process_node]
      have hmem' : node_id ∈
          bucketOf (appendToRole st.nodes_by_role (get_role node.attributes) node_id) role := by
        rw [bucketOf_appendToRole_ne _ _ _ _ (Ne.symm hr)]
        exact hmem
      refine ⟨⟨?_, ?_⟩, hlist⟩
      · intro x
        rw [hstate]
        by_cases hx : x = node_id
        · subst hx
          have h1 := totalCount_removeFromRole_self
            (appendToRole st.nodes_by_role (get_role node.attributes) x) role x hmem'
          rw [totalCount_appendToRole, if_pos rfl] at h1
          have h2 := hwf.1 x
          omega
        · rw [totalCount_removeFromRole_ne _ _ _ _ hx, totalCount_appendToRole,
            if_neg (Ne.symm hx)]
          have := hwf.1 x
          omega
      · intro x hx
        rw [hstate] at hx
        rw [hlist]
        by_cases hxid : x = node_id
        · subst hxid
          have h1 : 0 < (bucketOf st.nodes_by_role role).count x :=
            List.count_pos_iff.mpr hmem
          have h2 := count_bucketOf_le_totalCount st.nodes_by_role role x
          exact hwf.2 x (by omega)
        · rw [totalCount_removeFromRole_ne _ _ _ _ hxid, totalCount_appendToRole,
            if_neg (Ne.symm hxid)] at hx
          exact hwf.2 x (by omega)

/-- The rendering loop preserves well-formedness and the known-node list. -/
theorem process_role_go_wf (role : String) (ns : NodesStats) :
    ∀ fuel i st out, BucketsWF st →
      BucketsWF (process_role_go role ns fuel i st out).1 ∧
      (process_role_go role ns fuel i st out).1.nodes_list = st.nodes_list := by
  intro fuel
  induction fuel with
  | zero =>
      intro i st out hwf
      exact ⟨by simpa [process_role_go] using hwf, by simp [process_role_go]⟩
  | succ fuel ih =>
      intro i st out hwf
      simp only [process_role_go]
      by_cases hlt : i < (bucketOf st.nodes_by_role role).length
      · rw [if_pos hlt]
        have hxmem : (bucketOf st.nodes_by_role role).getD i "" ∈
            bucketOf st.nodes_by_role role := getD_mem_of_lt _ _ hlt
        have hstep := process_one_wf role ns _ st hwf hxmem
        have hrec := ih (i + 1)
          (process_one role ns ((bucketOf st.nodes_by_role role).getD i "") st).1
          (out ++ [(process_one role ns ((bucketOf st.nodes_by_role role).getD i "") st).2])
          hstep.1
        exact ⟨hrec.1, hrec.2.trans hstep.2⟩
      · rw [if_neg hlt]
        exact ⟨hwf, rfl⟩

/-- Rendering one role bucket preserves well-formedness. -/
theorem process_role_wf (role : String) (ns : NodesStats) (st : ESState)
    (out : List NodeRecord) (hwf : BucketsWF st) :
    BucketsWF (process_role role ns st out).1 :=
  (process_role_go_wf role ns (bucketOf st.nodes_by_role role).length 0 st out hwf).1

/-- The per-cycle fold of `process_role` over role keys preserves
well-formedness. -/
theorem process_roles_fold_wf (ns : NodesStats) :
    ∀ (roles : List String) (acc : ESState × List NodeRecord), BucketsWF acc.1 →
      BucketsWF (roles.foldl (fun acc role => process_role role ns acc.1 acc.2) acc).1 := by
  intro roles
  induction roles with
  | nil =>
      intro acc h
      simpa using h
  | cons r rest ih =>
      intro acc h
      simp only [List.foldl_cons]
      exact ih _ (process_role_wf r ns acc.1 acc.2 h)

/-- Membership reconciliation preserves well-formedness (snapshot ids are
dict keys, hence duplicate-free). -/
theorem reconcile_wf (st : ESState) (ns : NodesStats) (hwf : BucketsWF st)
    (hnd : (ns.map Prod.fst).Nodup) : BucketsWF (reconcile st ns) := by
  unfold reconcile
  by_cases h0 : st.nodes_list.length = 0
  · rw [if_pos h0]
    have hempty : st.nodes_list = [] := List.length_eq_zero.mp h0
    exact register_nodes_wf ns _ st hwf hnd (by simp [hempty])
  · rw [if_neg h0]
    by_cases h1 : ns.length > st.nodes_list.length
    · rw [if_pos h1]
      refine register_nodes_wf ns _ st hwf (hnd.filter _) ?_
      intro x hx
      have := List.of_mem_filter hx
      simpa using this
    · rw [if_neg h1]
      exact hwf

/-- One polling cycle preserves well-formedness. -/
theorem run_cycle_wf (st : ESState) (ns : NodesStats) (hwf : BucketsWF st)
    (hnd : (ns.map Prod.fst).Nodup) : BucketsWF (run_cycle st ns).1 := by
  unfold run_cycle
  exact process_roles_fold_wf ns _ _ (reconcile_wf st ns hwf hnd)

/-- Every run from the initial state through well-formed snapshots yields a
well-formed topology. -/
theorem run_cycles_fold_wf :
    ∀ (snaps : List NodesStats) (st : ESState), BucketsWF st →
      (∀ s ∈ snaps, (s.map Prod.fst).Nodup) →
      BucketsWF (snaps.foldl (fun st ns => (run_cycle st ns).1) st) := by
  intro snaps
  induction snaps with
  | nil =>
      intro st h _
      simpa using h
  | cons ns rest ih =>
      intro st h hnd
      simp only [List.foldl_cons]
      exact ih _ (run_cycle_wf st ns h (hnd ns (List.mem_cons_self _ _)))
        fun s hs => hnd s (List.mem_cons_of_mem _ hs)

-- ======================================================================
-- Claim theorems
-- ======================================================================

/-- C1: for every node and diffed counter kind (GC-old count, GC-young
count, field-data evictions, field-data trips, HTTP total-opened), the first
observation stores the current cumulative value as baseline and renders the
`-` sentinel in the delta position (distinguishable from a rendered zero
delta), and every later observation with stored value `v0` and current value
`v1` renders exactly `v1 - v0` and updates the stored value to `v1`. -/
theorem c1_counter_observe
    (gcs fds : List (String × (Int × Int))) (hcs : List (String × Int))
    (n : String) (o y : GcGen) (ev tr cur tot : Int) :
    (gcs.lookup n = none →
      (get_gc_stats gcs n o y).1 = ("-|-", "-|-") ∧
      (get_gc_stats gcs n o y).2.lookup n = some (o.collection_count, y.collection_count)) ∧
    (∀ o0 y0, gcs.lookup n = some (o0, y0) →
      (get_gc_stats gcs n o y).1.1 =
        toString (o.collection_count - o0) ++ "|" ++ toString (o.collection_count - o0) ++ "ms" ∧
      (get_gc_stats gcs n o y).1.2 =
        toString (y.collection_count - y0) ++ "|" ++ toString (y.collection_count - y0) ++ "ms" ∧
      (get_gc_stats gcs n o y).2.lookup n = some (o.collection_count, y.collection_count)) ∧
    (fds.lookup n = none →
      (get_fd_stats fds n ev tr).1 = "-|-" ∧
      (get_fd_stats fds n ev tr).2.lookup n = some (ev, tr)) ∧
    (∀ e0 t0, fds.lookup n = some (e0, t0) →
      (get_fd_stats fds n ev tr).1 = toString (ev - e0) ++ "|" ++ toString (tr - t0) ∧
      (get_fd_stats fds n ev tr).2.lookup n = some (ev, tr)) ∧
    (hcs.lookup n = none →
      (get_http_conns hcs n cur tot).1 = toString cur ++ "|-" ∧
      (get_http_conns hcs n cur tot).2.lookup n = some tot) ∧
    (∀ p0, hcs.lookup n = some p0 →
      (get_http_conns hcs n cur tot).1 = toString cur ++ "|" ++ toString (tot - p0) ∧
      (get_http_conns hcs n cur tot).2.lookup n = some tot) ∧
    ("-|-" : String) ≠ toString (0 : Int) ++ "|" ++ toString (0 : Int) ++ "ms" ∧
    ("-|-" : String) ≠ toString (0 : Int) ++ "|" ++ toString (0 : Int) := by
  refine ⟨?_, ?_, ?_, ?_, ?_, ?_, by decide, by decide⟩
  · intro h
    simp [get_gc_stats, h, lookup_setval]
  · intro o0 y0 h
    simp [get_gc_stats, h, format_delta_pair, lookup_setval]
  · intro h
    simp [get_fd_stats, h, lookup_setval]
  · intro e0 t0 h
    simp [get_fd_stats, h, lookup_setval]
  · intro h
    simp [get_http_conns, h, lookup_setval]
  · intro p0 h
    simp [get_http_conns, h, lookup_setval]

/-- Witness for C1: concrete first and subsequent observations of every
counter kind. -/
theorem c1_counter_observe_witness :
    ((get_gc_stats [] "n" ⟨5, 100⟩ ⟨7, 200⟩).1 = ("-|-", "-|-") ∧
      (get_gc_stats [] "n" ⟨5, 100⟩ ⟨7, 200⟩).2.lookup "n" = some (5, 7)) ∧
    ((get_gc_stats [("n", (5, 7))] "n" ⟨9, 100⟩ ⟨8, 200⟩).1.1 =
        toString (9 - 5 : Int) ++ "|" ++ toString (9 - 5 : Int) ++ "ms" ∧
      (get_gc_stats [("n", (5, 7))] "n" ⟨9, 100⟩ ⟨8, 200⟩).1.2 =
        toString (8 - 7 : Int) ++ "|" ++ toString (8 - 7 : Int) ++ "ms" ∧
      (get_gc_stats [("n", (5, 7))] "n" ⟨9, 100⟩ ⟨8, 200⟩).2.lookup "n" = some (9, 8)) ∧
    ((get_fd_stats [] "n" 1 2).1 = "-|-" ∧
      (get_fd_stats [] "n" 1 2).2.lookup "n" = some (1, 2)) ∧
    ((get_fd_stats [("n", (1, 2))] "n" 4 2).1 =
        toString (4 - 1 : Int) ++ "|" ++ toString (2 - 2 : Int) ∧
      (get_fd_stats [("n", (1, 2))] "n" 4 2).2.lookup "n" = some (4, 2)) ∧
    ((get_http_conns [] "n" 3 10).1 = toString (3 : Int) ++ "|-" ∧
      (get_http_conns [] "n" 3 10).2.lookup "n" = some 10) ∧
    ((get_http_conns [("n", 10)] "n" 3 16).1 =
        toString (3 : Int) ++ "|" ++ toString (16 - 10 : Int) ∧
      (get_http_conns [("n", 10)] "n" 3 16).2.lookup "n" = some 16) :=
  ⟨(c1_counter_observe [] [] [] "n" ⟨5, 100⟩ ⟨7, 200⟩ 0 0 0 0).1 (by decide),
   (c1_counter_observe [("n", (5, 7))] [] [] "n" ⟨9, 100⟩ ⟨8, 200⟩ 0 0 0 0).2.1 5 7 (by decide),
   (c1_counter_observe [] [] [] "n" ⟨5, 100⟩ ⟨7, 200⟩ 1 2 0 0).2.2.1 (by decide),
   (c1_counter_observe [] [("n", (1, 2))] [] "n" ⟨5, 100⟩ ⟨7, 200⟩ 4 2 0 0).2.2.2.1 1 2 (by decide),
   (c1_counter_observe [] [] [] "n" ⟨5, 100⟩ ⟨7, 200⟩ 0 0 3 10).2.2.2.2.1 (by decide),
   (c1_counter_observe [] [] [("n", 10)] "n" ⟨5, 100⟩ ⟨7, 200⟩ 0 0 3 16).2.2.2.2.2.1 10 (by decide)⟩

/-- C2 (code bug): a node (`idc`) joining in the same cycle as another node
(`idb`) leaves — so the snapshot size does not exceed the known-node
count — is not registered: after the second cycle it is in no role bucket,
has no recorded name, is not in the known-node list, and no record is
emitted for it, although the snapshot contains it. -/
theorem c2_balanced_join_missed :
    (c2_ns2.lookup "idc").isSome = true ∧
    ((run_cycle (run_cycle init_state c2_ns1).1 c2_ns2).1.nodes_list = ["ida", "idb"] ∧
     (run_cycle (run_cycle init_state c2_ns1).1 c2_ns2).1.node_names.lookup "idc" = none ∧
     totalCount (run_cycle (run_cycle init_state c2_ns1).1 c2_ns2).1.nodes_by_role "idc" = 0 ∧
     (run_cycle (run_cycle init_state c2_ns1).1 c2_ns2).2.map record_name =
       ["node-a", "node-b"]) := by decide

/-- C3 (code bug): when `idn1` changes role from DATA to ALL, iterating the
DATA bucket while removing `idn1` from it skips `idn2` (present in the
snapshot, yet no record), and the ALL bucket — iterated later in the same
cycle — emits `idn1` a second time: the cycle's records are
`n1, a, n1`. -/
theorem c3_role_change_skip_double :
    (c3_ns2.lookup "idn2").isSome = true ∧
    "idn2" ∈ (run_cycle init_state c3_ns1).1.nodes_list ∧
    (run_cycle (run_cycle init_state c3_ns1).1 c3_ns2).2.map record_name =
      ["n1", "a", "n1"] := by decide

/-- C4 counterexample: the counter store is keyed by display name, so in a
single cycle the two distinct identities `uuid-one` and `uuid-two`, both
named `shared-name`, share one baseline: `uuid-two`'s very first observation
renders the numeric delta `4|4ms` computed against `uuid-one`'s baseline
instead of the no-baseline sentinel, and the store holds a single entry
under the shared display name. -/
theorem c4_shared_name_shares_baseline :
    "uuid-one" ≠ "uuid-two" ∧
    (run_cycle init_state c4_ns).2.map record_old_gc = ["-|-", "4|4ms"] ∧
    (run_cycle init_state c4_ns).1.gc_counters = [("shared-name", (9, 2))] := by decide

/-- C4 amended: counter baselines are stored per (display name, counter
kind): `process_node` updates each of the three stores exactly at the key
`node.name` — the node's display name, not its snapshot identity (which
`process_node` is never given) — and leaves every other key unchanged, so
identities sharing a display name share baselines and a renamed node does
not keep its old entries. -/
theorem c4_counters_keyed_by_display_name (st : ESState) (role : String)
    (node : NodeStats) (m : String) (hm : m ≠ node.name) :
    ((process_node st role node).2.gc_counters.lookup node.name =
        some (node.gc_old.collection_count, node.gc_young.collection_count) ∧
      (process_node st role node).2.fd_counters.lookup node.name =
        some (node.fielddata_evictions, node.fielddata_tripped) ∧
      (process_node st role node).2.hconn_counters.lookup node.name =
        some node.http_total_opened) ∧
    ((process_node st role node).2.gc_counters.lookup m = st.gc_counters.lookup m ∧
      (process_node st role node).2.fd_counters.lookup m = st.fd_counters.lookup m ∧
      (process_node st role node).2.hconn_counters.lookup m = st.hconn_counters.lookup m) := by
  have hgc : (process_node st role node).2.gc_counters =
      setval st.gc_counters node.name
        (node.gc_old.collection_count, node.gc_young.collection_count) := by
    simp [process_node, get_gc_stats_counters]
  have hfd : (process_node st role node).2.fd_counters =
      setval st.fd_counters node.name
        (node.fielddata_evictions, node.fielddata_tripped) := by
    simp [process_node, get_fd_stats_counters]
  have hhc : (process_node st role node).2.hconn_counters =
      setval st.hconn_counters node.name node.http_total_opened := by
    simp [process_node, get_http_conns_counters]
  refine ⟨⟨?_, ?_, ?_⟩, ?_, ?_, ?_⟩
  · rw [hgc, lookup_setval]
  · rw [hfd, lookup_setval]
  · rw [hhc, lookup_setval]
  · rw [hgc, lookup_setval_ne _ _ _ _ hm]
  · rw [hfd, lookup_setval_ne _ _ _ _ hm]
  · rw [hhc, lookup_setval_ne _ _ _ _ hm]

/-- Witness for the amended C4 at a concrete node and store. -/
theorem c4_counters_keyed_by_display_name_witness :
    ((process_node init_state "ALL" (mkNode "shared-name" [] 9)).2.gc_counters.lookup
        "shared-name" = some (9, 2) ∧
      (process_node init_state "ALL" (mkNode "shared-name" [] 9)).2.fd_counters.lookup
        "shared-name" = some (0, 0) ∧
      (process_node init_state "ALL" (mkNode "shared-name" [] 9)).2.hconn_counters.lookup
        "shared-name" = some 10) ∧
    ((process_node init_state "ALL" (mkNode "shared-name" [] 9)).2.gc_counters.lookup
        "other" = init_state.gc_counters.lookup "other" ∧
      (process_node init_state "ALL" (mkNode "shared-name" [] 9)).2.fd_counters.lookup
        "other" = init_state.fd_counters.lookup "other" ∧
      (process_node init_state "ALL" (mkNode "shared-name" [] 9)).2.hconn_counters.lookup
        "other" = init_state.hconn_counters.lookup "other") :=
  c4_counters_keyed_by_display_name init_state "ALL" (mkNode "shared-name" [] 9)
    "other" (by decide)

/-- C5 counterexample: with both eligibility flags missing the classifier
returns `ALL` (absent defaults to `"true"` for each flag), not the UNKNOWN
role the claim assigns to the missing-both combination. -/
theorem c5_missing_both_is_all :
    get_role [] = "ALL" ∧ get_role [] ≠ "UNK" := by decide

/-- C5 amended: classification is a pure function of the attributes; an
absent flag defaults to true, so missing-both yields ALL; the four
explicit true/false combinations yield ALL/MST/DATA/RTR; and a malformed
(neither `"true"` nor `"false"`) value yields UNK. -/
theorem c5_role_classification_table (attrs : List (String × String)) :
    ((attrs.lookup "master").getD "true" = "true" →
      (attrs.lookup "data").getD "true" = "true" → get_role attrs = "ALL") ∧
    ((attrs.lookup "master").getD "true" = "true" →
      (attrs.lookup "data").getD "true" = "false" → get_role attrs = "MST") ∧
    ((attrs.lookup "master").getD "true" = "false" →
      (attrs.lookup "data").getD "true" = "true" → get_role attrs = "DATA") ∧
    ((attrs.lookup "master").getD "true" = "false" →
      (attrs.lookup "data").getD "true" = "false" → get_role attrs = "RTR") ∧
    ((((attrs.lookup "master").getD "true" ≠ "true" ∧
        (attrs.lookup "master").getD "true" ≠ "false") ∨
      ((attrs.lookup "data").getD "true" ≠ "true" ∧
        (attrs.lookup "data").getD "true" ≠ "false")) → get_role attrs = "UNK") ∧
    (attrs.lookup "master" = none → attrs.lookup "data" = none → get_role attrs = "ALL") := by
  refine ⟨?_, ?_, ?_, ?_, ?_, ?_⟩
  · intro h1 h2; simp [get_role, h1, h2]
  · intro h1 h2; simp [get_role, h1, h2]
  · intro h1 h2; simp [get_role, h1, h2]
  · intro h1 h2; simp [get_role, h1, h2]
  · rintro (⟨h1, h2⟩ | ⟨h1, h2⟩) <;> simp [get_role, h1, h2]
  · intro h1 h2; simp [get_role, h1, h2]

/-- Witness for the amended C5: a malformed master flag yields UNK. -/
theorem c5_role_classification_table_witness :
    get_role [("master", "maybe")] = "UNK" :=
  (c5_role_classification_table [("master", "maybe")]).2.2.2.2.1
    (Or.inl ⟨by decide, by decide⟩)

/-- C6 counterexample: `idm2` is previously known and absent from the
second snapshot, but because `idm1` changes role earlier in the same DATA
bucket, the iterator skips `idm2` entirely: the cycle emits no degraded
record at all (and no record for `m2`). -/
theorem c6_absent_node_record_skipped :
    "idm2" ∈ (run_cycle init_state c6_ns1).1.nodes_list ∧
    (c6_ns2.lookup "idm2").isSome = false ∧
    (run_cycle (run_cycle init_state c6_ns1).1 c6_ns2).2.map record_is_failed =
      [false, false, false] ∧
    (run_cycle (run_cycle init_state c6_ns1).1 c6_ns2).2.map record_name =
      ["m1", "b", "m1"] := by decide

/-- C6 amended: provided no surviving member of the node's role bucket
changes role this cycle (a role change earlier in the bucket can make the
iterator skip entries — see the counterexample), every previously known
node of that bucket that is absent from the snapshot receives a degraded
record carrying its last-known display name and the parenthesized role it
held when last seen; the node is not removed from its bucket, and the
rendering pass completes normally (the condition is not fatal). -/
theorem c6_missing_node_degraded_record
    (st : ESState) (ns : NodesStats) (role node_id : String)
    (out : List NodeRecord)
    (hmem : node_id ∈ bucketOf st.nodes_by_role role)
    (habs : ns.lookup node_id = none)
    (hstable : ∀ x ∈ bucketOf st.nodes_by_role role,
      ((ns.lookup x).map fun nd => get_role nd.attributes).getD role = role) :
    NodeRecord.failed (lookupD st.node_names node_id "") ("(" ++ role ++ ")")
        ∈ (process_role role ns st out).2 ∧
    node_id ∈ bucketOf (process_role role ns st out).1.nodes_by_role role := by
  obtain ⟨j, hj, hbj⟩ := List.mem_iff_getElem.mp hmem
  constructor
  · exact process_role_go_emits_failed role ns _ node_id hstable habs
      (bucketOf st.nodes_by_role role).length 0 st out rfl (by omega) j (by omega) hj hbj
  · have hs := (process_role_go_stable role ns _ hstable
      (bucketOf st.nodes_by_role role).length 0 st out rfl).1
    show node_id ∈ bucketOf
      (process_role_go role ns (bucketOf st.nodes_by_role role).length 0 st out).1.nodes_by_role role
    rw [hs]
    exact hmem

/-- Witness for the amended C6: a two-node ALL bucket in which `i2` is
absent from the snapshot and `i1` keeps its role. -/
theorem c6_missing_node_degraded_record_witness :
    NodeRecord.failed (lookupD c6w_state.node_names "i2" "") ("(" ++ "ALL" ++ ")")
        ∈ (process_role "ALL" c6w_ns c6w_state []).2 ∧
    "i2" ∈ bucketOf (process_role "ALL" c6w_ns c6w_state []).1.nodes_by_role "ALL" :=
  c6_missing_node_degraded_record c6w_state c6w_ns "ALL" "i2" []
    (by decide) rfl (by decide)

/-- C8: for a node with an existing GC baseline, the rendered GC-old and
GC-young strings put the computed delta into both halves of the
`delta|time` label (the half after `|` is the delta again with an `ms`
suffix), and the cumulative collection times passed to the formatting
expression never influence the result: observations differing only in the
time fields render identically. -/
theorem c8_gc_label_uses_delta_twice
    (gcs : List (String × (Int × Int))) (n : String) (o y o' y' : GcGen)
    (o0 y0 : Int)
    (hco : o'.collection_count = o.collection_count)
    (hcy : y'.collection_count = y.collection_count)
    (h : gcs.lookup n = some (o0, y0)) :
    (get_gc_stats gcs n o y).1.1 =
      toString (o.collection_count - o0) ++ "|" ++ toString (o.collection_count - o0) ++ "ms" ∧
    (get_gc_stats gcs n o y).1.2 =
      toString (y.collection_count - y0) ++ "|" ++ toString (y.collection_count - y0) ++ "ms" ∧
    get_gc_stats gcs n o' y' = get_gc_stats gcs n o y := by
  refine ⟨?_, ?_, ?_⟩
  · simp [get_gc_stats, h, format_delta_pair]
  · simp [get_gc_stats, h, format_delta_pair]
  · simp [get_gc_stats, h, format_delta_pair, hco, hcy]

/-- Witness for C8: a concrete baselined observation where the two time
arguments (100 vs 98765, 30 vs 4321) leave the rendered labels unchanged. -/
theorem c8_gc_label_uses_delta_twice_witness :
    (get_gc_stats [("n", (5, 7))] "n" ⟨9, 100⟩ ⟨8, 30⟩).1.1 =
      toString (9 - 5 : Int) ++ "|" ++ toString (9 - 5 : Int) ++ "ms" ∧
    (get_gc_stats [("n", (5, 7))] "n" ⟨9, 100⟩ ⟨8, 30⟩).1.2 =
      toString (8 - 7 : Int) ++ "|" ++ toString (8 - 7 : Int) ++ "ms" ∧
    get_gc_stats [("n", (5, 7))] "n" ⟨9, 98765⟩ ⟨8, 4321⟩ =
      get_gc_stats [("n", (5, 7))] "n" ⟨9, 100⟩ ⟨8, 30⟩ :=
  c8_gc_label_uses_delta_twice [("n", (5, 7))] "n" ⟨9, 100⟩ ⟨8, 30⟩ ⟨9, 98765⟩ ⟨8, 4321⟩
    5 7 rfl rfl (by decide)

/-- C9: the topology invariant.  A polling cycle over a snapshot with
duplicate-free node ids preserves well-formedness (each id in at most one
bucket, exactly once, and only known ids in buckets) — registration adds a
new id to exactly one bucket, an already known id (including one that left
and rejoins) is never re-added, and a role change removes the id from the
old bucket when adding it to the new one — and consequently, after any run
of cycles from the initial state, every node id present in the topology's
buckets occurs in exactly one role bucket. -/
theorem c9_topology_exactly_one_bucket
    (st : ESState) (ns : NodesStats) (snaps : List NodesStats)
    (hwf : BucketsWF st) (hnd : (ns.map Prod.fst).Nodup)
    (hsnd : ∀ s ∈ snaps, (s.map Prod.fst).Nodup) :
    BucketsWF (run_cycle st ns).1 ∧
    ∀ node_id, 1 ≤ totalCount (run_cycles snaps).nodes_by_role node_id →
      totalCount (run_cycles snaps).nodes_by_role node_id = 1 := by
  have hall : BucketsWF (run_cycles snaps) :=
    run_cycles_fold_wf snaps init_state BucketsWF_init hsnd
  exact ⟨run_cycle_wf st ns hwf hnd,
    fun node_id h => Nat.le_antisymm (hall.1 node_id) h⟩

/-- Witness for C9: after one concrete cycle the registered node occupies
exactly one bucket. -/
theorem c9_topology_exactly_one_bucket_witness :
    totalCount (run_cycles c9w_snaps).nodes_by_role "idw" = 1 :=
  (c9_topology_exactly_one_bucket init_state [] c9w_snaps BucketsWF_init
    (by simp) (by decide)).2 "idw" (by decide)

/-- C10: nodes whose role for the cycle is neither DATA nor ALL render the
merge-time, store-throttle and document-count fields as the `not
applicable` placeholders regardless of the node's indices metrics, while
DATA and ALL nodes carry the snapshot values through. -/
theorem c10_data_role_fields (st : ESState) (role : String) (node : NodeStats) :
    (role = "DATA" ∨ role = "ALL" →
      (process_node st role node).1.merge_time = node.merges_total_time ∧
      (process_node st role node).1.store_throttle = node.store_throttle_time ∧
      (process_node st role node).1.docs =
        toString node.docs_count ++ "|" ++ toString node.docs_deleted) ∧
    (role ≠ "DATA" → role ≠ "ALL" →
      (process_node st role node).1.merge_time = "-" ∧
      (process_node st role node).1.store_throttle = "-" ∧
      (process_node st role node).1.docs = "-|-") := by
  constructor
  · intro h
    have hc : role ∈ (["DATA", "ALL"] : List String) := by
      rcases h with h | h <;> simp [h]
    simp [process_node, hc]
  · intro h1 h2
    have hc : role ∉ (["DATA", "ALL"] : List String) := by
      simp [h1, h2]
    simp [process_node, hc]

/-- Witness for C10: a DATA node passes its metrics through; an MST node
renders the placeholders. -/
theorem c10_data_role_fields_witness :
    ((process_node init_state "DATA" (mkNode "n" [("master", "false")] 5)).1.merge_time =
        (mkNode "n" [("master", "false")] 5).merges_total_time ∧
      (process_node init_state "DATA" (mkNode "n" [("master", "false")] 5)).1.store_throttle =
        (mkNode "n" [("master", "false")] 5).store_throttle_time ∧
      (process_node init_state "DATA" (mkNode "n" [("master", "false")] 5)).1.docs =
        toString (mkNode "n" [("master", "false")] 5).docs_count ++ "|" ++
          toString (mkNode "n" [("master", "false")] 5).docs_deleted) ∧
    ((process_node init_state "MST" (mkNode "n" [("data", "false")] 5)).1.merge_time = "-" ∧
      (process_node init_state "MST" (mkNode "n" [("data", "false")] 5)).1.store_throttle = "-" ∧
      (process_node init_state "MST" (mkNode "n" [("data", "false")] 5)).1.docs = "-|-") :=
  ⟨(c10_data_role_fields init_state "DATA" (mkNode "n" [("master", "false")] 5)).1
      (Or.inl rfl),
   (c10_data_role_fields init_state "MST" (mkNode "n" [("data", "false")] 5)).2
      (by decide) (by decide)⟩

/-- C7: when a surviving node's reclassified role differs from the bucket
it occupies, `process_role`'s per-node step moves it before emitting: the
emitted record carries the new role label (starred when the node is the
active master), and the state the step leaves behind — the one all later
lookups see — has the node in the new role's bucket and no longer in the
old one. -/
theorem c7_role_change_moves_before_emit
    (st : ESState) (ns : NodesStats) (role node_id : String) (node : NodeStats)
    (hn : ns.lookup node_id = some node)
    (hr : get_role node.attributes ≠ role)
    (hmem : node_id ∈ bucketOf st.nodes_by_role role)
    (hcount : totalCount st.nodes_by_role node_id ≤ 1) :
    record_role_label (process_one role ns node_id st).2 =
      (if node.name = st.active_master then get_role node.attributes ++ "*"
       else get_role node.attributes) ∧
    node_id ∈ bucketOf (process_one role ns node_id st).1.nodes_by_role
      (get_role node.attributes) ∧
    node_id ∉ bucketOf (process_one role ns node_id st).1.nodes_by_role role := by
  have hstate : (process_one role ns node_id st).1.nodes_by_role =
      removeFromRole (appendToRole st.nodes_by_role (get_role node.attributes) node_id)
        role node_id := by
    simp [process_one, hn, hr, process_node]
  refine ⟨?_, ?_, ?_⟩
  · simp [process_one, hn, hr, record_role_label, process_node]
  · rw [hstate, bucketOf_removeFromRole_ne _ _ _ _ hr, bucketOf_appendToRole_same]
    exact List.mem_append_right _ (List.mem_singleton.mpr rfl)
  · rw [hstate, bucketOf_removeFromRole_same,
      bucketOf_appendToRole_ne _ _ _ _ (Ne.symm hr)]
    have hc : (bucketOf st.nodes_by_role role).count node_id ≤ 1 :=
      Nat.le_trans (count_bucketOf_le_totalCount _ _ _) hcount
    exact not_mem_removeFirst_of_count_le_one _ _ hmem hc

/-- Witness for C7: a concrete DATA→ALL reclassification step. -/
theorem c7_role_change_moves_before_emit_witness :
    record_role_label (process_one "DATA" c7w_ns "i1" c7w_state).2 =
      (if (mkNode "n1" [] 7).name = c7w_state.active_master then
        get_role (mkNode "n1" [] 7).attributes ++ "*"
       else get_role (mkNode "n1" [] 7).attributes) ∧
    "i1" ∈ bucketOf (process_one "DATA" c7w_ns "i1" c7w_state).1.nodes_by_role
      (get_role (mkNode "n1" [] 7).attributes) ∧
    "i1" ∉ bucketOf (process_one "DATA" c7w_ns "i1" c7w_state).1.nodes_by_role "DATA" :=
  c7_role_change_moves_before_emit c7w_state c7w_ns "DATA" "i1" (mkNode "n1" [] 7)
    rfl (by decide) (by decide) (by decide)

end Elasticstat
